import Mathlib

/-!
Shallow embedding of the `lifecalendar` wallpaper generator
(`src/lib/wallpaper.py`, `src/lib/effects.py`, `src/lib/elements.py`).

Conventions of the embedding:
* Python numbers (ints and floats) are modelled as `ℤ` / `ℚ`; float literals
  such as `0.5`, `0.18`, `1.2` are carried as exact rationals.
* `int(x)` (Python truncation toward zero) is `pyint`; `//` (floor division)
  is `Int.fdiv`.
* A PIL image is a `Canvas` (mode RGB) or `CanvasA` (mode RGBA): explicit
  width/height plus a total pixel function; values outside the canvas bounds
  are irrelevant.  `ImageDraw` calls mutate pixels only, so each draw call is
  modelled as a pixel-function transformer.
* Library primitives whose exact rasterisation no claim depends on
  (TrueType text, Gaussian blur, anti-aliased lines/polygons, the transcendental
  `sin/cos/**` position math of the decorative layers, and the `random` module's
  draws) are abstracted into a `Prims` record of pixel transformers; every
  theorem is universally quantified over `Prims`, so it holds in particular for
  the real PIL semantics.  Everything else (canvas flow, sizes, mode
  conversions, channel splits/merges, arithmetic) is translated directly from
  the source.
-/

/-- One 8-bit RGB pixel (PIL mode `RGB`). -/
structure RGBc where
  r : ℕ
  g : ℕ
  b : ℕ
deriving DecidableEq, Repr

/-- One 8-bit RGBA pixel (PIL mode `RGBA`). -/
structure RGBAc where
  r : ℕ
  g : ℕ
  b : ℕ
  a : ℕ
deriving DecidableEq, Repr

/-- Pixel field of an RGB image. -/
def Pix : Type := ℕ → ℕ → RGBc

/-- Pixel field of an RGBA image. -/
def PixA : Type := ℕ → ℕ → RGBAc

/-- Pixel field of a single-band image (PIL mode `L`). -/
def PixL : Type := ℕ → ℕ → ℕ

/-- A PIL image in mode `RGB`: a size together with its pixel data. -/
structure Canvas where
  width : ℕ
  height : ℕ
  pix : Pix

/-- A PIL image in mode `RGBA`. -/
structure CanvasA where
  width : ℕ
  height : ℕ
  pix : PixA

/-- `Image.getbands` length for mode `RGB`: always three channels, no alpha. -/
def Canvas.channels (_ : Canvas) : ℕ := 3

/-- Python `int(q)`: truncation toward zero. -/
def pyint (q : ℚ) : ℤ := if 0 ≤ q then ⌊q⌋ else -⌊-q⌋

/-- Python `a // b`: floor division on integers. -/
def pydiv (a b : ℤ) : ℤ := Int.fdiv a b

/-- `img.convert('RGBA')` on an RGB image: alpha becomes fully opaque. -/
def Canvas.toRGBA (c : Canvas) : CanvasA :=
  ⟨c.width, c.height, fun x y => ⟨(c.pix x y).r, (c.pix x y).g, (c.pix x y).b, 255⟩⟩

/-- `img.convert('RGB')` on an RGBA image: the alpha band is dropped. -/
def CanvasA.toRGB (c : CanvasA) : Canvas :=
  ⟨c.width, c.height, fun x y => ⟨(c.pix x y).r, (c.pix x y).g, (c.pix x y).b⟩⟩

/-- Division by 255 with rounding to nearest, as used by PIL's
compositing arithmetic. -/
def div255 (n : ℕ) : ℕ := (n + 127) / 255

/-- One-pixel source-over blend, modelling `Image.alpha_composite`. -/
def overPixel (bg fg : RGBAc) : RGBAc :=
  let outA := fg.a + div255 (bg.a * (255 - fg.a))
  let blend := fun (cb cf : ℕ) =>
    if outA = 0 then 0
    else (cf * fg.a * 255 + cb * bg.a * (255 - fg.a)) / (255 * outA)
  ⟨blend bg.r fg.r, blend bg.g fg.g, blend bg.b fg.b, outA⟩

/-- `Image.alpha_composite(bg, fg)`: requires equal sizes in PIL; the result
has the background's size. -/
def alphaComposite (bg fg : CanvasA) : CanvasA :=
  ⟨bg.width, bg.height, fun x y => overPixel (bg.pix x y) (fg.pix x y)⟩

/-- `Image.new('RGBA', (w, h), color)`. -/
def newRGBA (w h : ℕ) (c : RGBAc) : CanvasA := ⟨w, h, fun _ _ => c⟩

/-- `Image.new('RGB', (w, h), color)`. -/
def newRGB (w h : ℕ) (c : RGBc) : Canvas := ⟨w, h, fun _ _ => c⟩

/-- Membership of an integer point in a PIL filled ellipse with bounding box
`[x0, y0, x1, y1]` (models `ImageDraw.ellipse` with a `fill`). -/
def ellipseContains (x0 y0 x1 y1 : ℤ) (x y : ℕ) : Prop :=
  x0 ≤ x1 ∧ y0 ≤ y1 ∧
    (2 * (x : ℤ) - (x0 + x1)) ^ 2 * (y1 - y0) ^ 2 +
      (2 * (y : ℤ) - (y0 + y1)) ^ 2 * (x1 - x0) ^ 2 ≤
      (x1 - x0) ^ 2 * (y1 - y0) ^ 2

instance (x0 y0 x1 y1 : ℤ) (x y : ℕ) : Decidable (ellipseContains x0 y0 x1 y1 x y) := by
  unfold ellipseContains; infer_instance

/-- `draw.ellipse([x0, y0, x1, y1], fill=c)` on an RGBA layer. -/
def fillEllipseA (x0 y0 x1 y1 : ℤ) (c : RGBAc) (old : PixA) : PixA :=
  fun x y => if ellipseContains x0 y0 x1 y1 x y then c else old x y

/-- `draw.ellipse([x0, y0, x1, y1], fill=v)` on an `L`-mode layer. -/
def fillEllipseL (x0 y0 x1 y1 : ℤ) (v : ℕ) (old : PixL) : PixL :=
  fun x y => if ellipseContains x0 y0 x1 y1 x y then v else old x y

/-- `draw.line([(0, y), (width, y)], fill=c)` — a full-width one-pixel
horizontal line on an RGB image (used by the gradient sky and scanlines). -/
def drawHLineRGB (row : ℕ) (c : RGBc) (old : Pix) : Pix :=
  fun x y => if y = row then c else old x y

/-- Pixel-content models for the library primitives whose exact raster output
no claim constrains: TrueType text, Gaussian blur, wide/diagonal lines,
polygon and ellipse outlines, the palm-tree silhouette draws, the float
powers `** 1.5` / `** 1.8`, and the `random` module's draws.  All theorems
are universally quantified over this record. -/
structure Prims where
  /-- `draw.text((x, y), text, font=font(size), fill=c)` on an RGB image. -/
  textPix : String → ℤ → ℤ → ℕ → RGBc → Pix → Pix
  /-- Width `bbox[2] - bbox[0]` of `draw.textbbox((0,0), text, font=font(size))`. -/
  textW : String → ℕ → ℤ
  /-- `layer.filter(ImageFilter.GaussianBlur(radius))` pixel content (the
  filtered image keeps the layer's size). -/
  blurA : ℚ → CanvasA → ℕ → ℕ → RGBAc
  /-- `draw.line([(x1, y1), (x2, y2)], fill=c, width=w)` on an RGBA layer. -/
  linePix : ℚ → ℚ → ℚ → ℚ → RGBAc → ℕ → PixA → PixA
  /-- `draw.polygon(points, outline=c, width=2)` for the rotated triangle at
  `(cx, cy)` with circumradius `size` and rotation (degrees); the
  `math.cos`/`math.sin` vertex math is absorbed into the primitive. -/
  triPix : ℚ → ℚ → ℚ → ℚ → RGBAc → PixA → PixA
  /-- `draw.ellipse(box, outline=c, width=w)` (outline only). -/
  ellipseOutline : ℤ → ℤ → ℤ → ℤ → RGBAc → ℕ → PixA → PixA
  /-- `draw.rounded_rectangle([x0, y0, x1, y1], radius, fill, outline, width)`
  on an RGBA layer (`outline = none` when no outline was passed).  The model
  is total, but Pillow itself raises `ValueError` on an inverted box
  (`x1 < x0`), so it is faithful only for `x0 ≤ x1`; theorems about the
  progress bar therefore restrict themselves to nonnegative track widths. -/
  roundedRect : ℤ → ℤ → ℤ → ℤ → ℤ → RGBAc → Option (RGBAc × ℕ) → PixA → PixA
  /-- The in-place ellipse/line draws of one `draw_palm_tree(draw, x, y,
  height, color, flip)` call (trunk positions use `math.sin`, frond lengths
  use `random.randint`). -/
  palmPix : ℤ → ℤ → ℤ → Bool → Pix → Pix
  /-- Float `x ** 1.5` (vignette brightness curve). -/
  pow15 : ℚ → ℚ
  /-- Float `x ** 1.8` (perspective-grid row spacing). -/
  pow18 : ℚ → ℚ
  /-- `random.randint(-noise_range, noise_range)` drawn for pixel `(x, y)`
  in `add_noise`. -/
  noiseAt : ℕ → ℕ → ℤ
  /-- The `(y_start, strip_height, offset)` random draws for glitch strip
  number `i` in `add_glitch_strips`. -/
  stripAt : ℕ → ℤ × ℤ × ℤ
  /-- Python `f"{v:,}"` — a number rendered with thousands separators. -/
  fmtNum : ℚ → String

/-! ### `src/lib/elements.py` — palette -/

/-- The vaporwave palette entries used by the goal renderer (`COLORS`). -/
def color_pink : RGBc := ⟨255, 113, 206⟩

def color_cyan : RGBc := ⟨1, 205, 254⟩

def color_purple : RGBc := ⟨185, 103, 255⟩

def color_neon_blue : RGBc := ⟨77, 238, 234⟩

def color_hot_pink : RGBc := ⟨255, 0, 128⟩

/-! ### `src/lib/wallpaper.py` — progress-bar arithmetic

`draw_progress_bar` consumes `progress` only through
`progress_width = int(width * min(progress, 1.0))`; the fill loop then draws
one vertical line per `i in range(progress_width)` at x-coordinate
`x + i + 2`, and the glow is drawn only under `progress_width > 0`. -/

/-- `progress_width = int(width * min(progress, 1.0))`. -/
def progress_width (width : ℤ) (progress : ℚ) : ℤ :=
  pyint ((width : ℚ) * min progress 1)

/-- The x-coordinates of the vertical fill lines drawn by the loop
`for i in range(progress_width): draw.line([(x + i + 2, ...), ...])`,
guarded by `if progress_width > 0`. -/
def fill_line_xs (x pw : ℤ) : List ℤ :=
  if 0 < pw then (List.range pw.toNat).map (fun (i : ℕ) => x + (i : ℤ) + 2) else []

/-- The left-to-right gradient color of fill line `i`:
`ratio = i / max(progress_width, 1)`, each channel
`int(channel * (0.8 + 0.2 * ratio))`. -/
def fill_line_color (barColor : RGBc) (pw : ℤ) (i : ℕ) : RGBc :=
  let t : ℚ := (i : ℚ) / (max pw 1 : ℤ)
  ⟨(pyint ((barColor.r : ℚ) * (8/10 + 2/10 * t))).toNat,
   (pyint ((barColor.g : ℚ) * (8/10 + 2/10 * t))).toNat,
   (pyint ((barColor.b : ℚ) * (8/10 + 2/10 * t))).toNat⟩

/-- `draw.line([(xpos, ytop), (xpos, ybot)], fill=c)` — a one-pixel vertical
segment on an RGBA layer (the progress-bar fill lines). -/
def drawVSegA (xpos ytop ybot : ℤ) (c : RGBAc) (old : PixA) : PixA :=
  fun x y => if (x : ℤ) = xpos ∧ ytop ≤ (y : ℤ) ∧ (y : ℤ) ≤ ybot then c else old x y

/-- `draw.rounded_rectangle([x, y, x + width, y + height], radius=height // 2,
fill=(*bg_color, 200), outline=(*bar_color, 100), width=2)` drawn on a fresh
transparent layer of the image's size — the progress bar's background track.
For `width < 0` the box is inverted and Pillow raises `ValueError`; the
total model covers only the non-inverted case (`0 ≤ width`). -/
def bar_track_layer (p : Prims) (w h : ℕ) (x y width height : ℤ)
    (barColor bgColor : RGBc) : CanvasA :=
  ⟨w, h,
    p.roundedRect x y (x + width) (y + height) (pydiv height 2)
      ⟨bgColor.r, bgColor.g, bgColor.b, 200⟩
      (some (⟨barColor.r, barColor.g, barColor.b, 100⟩, 2))
      (fun _ _ => ⟨0, 0, 0, 0⟩)⟩

/-- The fill loop of `draw_progress_bar`: for each `i in range(progress_width)`
a vertical gradient line at `x + i + 2` from `y + 2` down to `y + height - 2`. -/
def bar_fill (x y height : ℤ) (barColor : RGBc) (pw : ℤ) (old : PixA) : PixA :=
  (List.range pw.toNat).foldl
    (fun acc i =>
      let c := fill_line_color barColor pw i
      drawVSegA (x + (i : ℤ) + 2) (y + 2) (y + height - 2) ⟨c.r, c.g, c.b, 255⟩ acc)
    old

/-- The `bar_layer` of `draw_progress_bar` as a function of
`progress_width`: the track, plus — only when `progress_width > 0` — the
gradient fill lines and (when `glow`) a blurred rounded-rectangle glow
composited beneath. -/
def bar_layer_pw (p : Prims) (w h : ℕ) (x y width height : ℤ)
    (pw : ℤ) (barColor bgColor : RGBc) (glow : Bool) : CanvasA :=
  if 0 < pw then
    let track := bar_track_layer p w h x y width height barColor bgColor
    let filled : CanvasA := ⟨track.width, track.height, bar_fill x y height barColor pw track.pix⟩
    if glow then
      let glowLayer : CanvasA :=
        ⟨w, h,
          p.roundedRect x y (x + pw) (y + height) (pydiv height 2)
            ⟨barColor.r, barColor.g, barColor.b, 60⟩ none (fun _ _ => ⟨0, 0, 0, 0⟩)⟩
      let glowBlurred : CanvasA := ⟨glowLayer.width, glowLayer.height, p.blurA 8 glowLayer⟩
      alphaComposite glowBlurred filled
    else filled
  else bar_track_layer p w h x y width height barColor bgColor

/-- `draw_progress_bar` after factoring out
`progress_width = int(width * min(progress, 1.0))` (the only use of
`progress` in the Python body). -/
def draw_progress_bar_pw (p : Prims) (img : Canvas) (x y width height : ℤ)
    (pw : ℤ) (barColor bgColor : RGBc) (glow : Bool) : Canvas :=
  (alphaComposite img.toRGBA
    (bar_layer_pw p img.width img.height x y width height pw barColor bgColor glow)).toRGB

/-- `draw_progress_bar(img, x, y, width, height, progress, bar_color,
bg_color=(30, 20, 50), glow=True)` from `src/lib/wallpaper.py`. -/
def draw_progress_bar (p : Prims) (img : Canvas) (x y width height : ℤ)
    (progress : ℚ) (barColor bgColor : RGBc) (glow : Bool) : Canvas :=
  draw_progress_bar_pw p img x y width height (progress_width width progress)
    barColor bgColor glow

/-- The `(dx, dy)` pairs visited by the nested glow loops
`for dx in range(-offset, offset + 1): for dy in ...` that satisfy
`dx*dx + dy*dy <= offset*offset`. -/
def glow_offsets (off : ℕ) : List (ℤ × ℤ) :=
  let rng := (List.range (2 * off + 1)).map (fun k => (k : ℤ) - off)
  rng.flatMap (fun dx =>
    rng.filterMap (fun dy =>
      if dx ^ 2 + dy ^ 2 ≤ (off : ℤ) ^ 2 then some (dx, dy) else none))

/-- `draw_neon_text(draw, text, position, font, color, glow_color, shadow)`:
shadow text, four rings of glow text, then the main text, all via
`draw.text` on the RGB image. -/
def draw_neon_text (p : Prims) (text : String) (x y : ℤ) (size : ℕ)
    (color glowColor : RGBc) (shadow : Bool) (pix0 : Pix) : Pix :=
  let pix1 := if shadow then p.textPix text (x + 3) (y + 3) size ⟨20, 10, 30⟩ pix0 else pix0
  let pix2 := ([4, 3, 2, 1] : List ℕ).foldl
    (fun acc off =>
      (glow_offsets off).foldl
        (fun acc2 d => p.textPix text (x + d.1) (y + d.2) size glowColor acc2) acc)
    pix1
  p.textPix text x y size color pix2

/-! ### `src/lib/wallpaper.py` — goal renderer -/

/-- One goal record from the configuration; `none` marks an absent key, so
`goal.get('current', 0)` is `Option.getD`. -/
structure Goal where
  name : Option String
  current : Option ℚ
  target : Option ℚ
deriving DecidableEq

/-- `current = goal.get('current', 0)`. -/
def goal_current (g : Goal) : ℚ := g.current.getD 0

/-- `target = goal.get('target', 100)`. -/
def goal_target (g : Goal) : ℚ := g.target.getD 100

/-- `progress = current / target if target > 0 else 0`. -/
def goal_progress (g : Goal) : ℚ :=
  if 0 < goal_target g then goal_current g / goal_target g else 0

/-- The integer rendered in the percentage label
`f"{int(progress * 100)}%"`. -/
def percent_label (g : Goal) : ℤ := pyint (goal_progress g * 100)

/-- `bar_colors`, the fixed cyclic color list of `draw_goal`. -/
def bar_colors : List RGBc :=
  [color_pink, color_cyan, color_purple, color_neon_blue, color_hot_pink]

/-- `color = bar_colors[index % len(bar_colors)]`. -/
def goal_color (index : ℕ) : RGBc :=
  bar_colors.getD (index % bar_colors.length) color_pink

/-- `draw_goal(img, goal, x, y, width, index)` from `src/lib/wallpaper.py`:
neon goal name, progress bar at `y + 40` of width `width - 120` and height
20, percentage label at `x + width - 100`, stat line at `bar_y + 28`. -/
def draw_goal (p : Prims) (img : Canvas) (g : Goal) (x y width : ℤ)
    (index : ℕ) : Canvas :=
  let color := goal_color index
  let name := (g.name.getD "Goal").toUpper
  let img1 : Canvas := ⟨img.width, img.height, draw_neon_text p name x y 24 color color true img.pix⟩
  let barY := y + 40
  let img2 := draw_progress_bar p img1 x barY (width - 120) 20 (goal_progress g)
    color ⟨30, 20, 50⟩ true
  let percentText := toString (percent_label g) ++ "%"
  let img3 : Canvas :=
    ⟨img2.width, img2.height,
      draw_neon_text p percentText (x + width - 100) (barY - 5) 28 color color true img2.pix⟩
  let statsText := p.fmtNum (goal_current g) ++ " / " ++ p.fmtNum (goal_target g)
  ⟨img3.width, img3.height, p.textPix statsText x (barY + 20 + 8) 18 ⟨180, 170, 200⟩ img3.pix⟩

/-- `draw_title(img, title, y)`: centered chrome/glow title text, all drawn
in place with `draw.text`. -/
def draw_title (p : Prims) (img : Canvas) (title : String) (y : ℤ) : Canvas :=
  let x := pydiv ((img.width : ℤ) - p.textW title 56) 2
  let pix1 := p.textPix title (x + 4) (y + 4) 56 ⟨20, 10, 30⟩ img.pix
  let pix2 := ([6, 5, 4, 3, 2, 1] : List ℕ).foldl
    (fun acc off =>
      (glow_offsets off).foldl
        (fun acc2 d => p.textPix title (x + d.1) (y + d.2) 56 ⟨255, 113, 206⟩ acc2) acc)
    pix1
  let pix3 := p.textPix title x (y - 1) 56 ⟨255, 255, 255⟩ pix2
  let pix4 := p.textPix title x y 56 ⟨255, 200, 230⟩ pix3
  let pix5 := p.textPix title x (y + 1) 56 ⟨200, 150, 200⟩ pix4
  ⟨img.width, img.height, pix5⟩

/-! ### `src/lib/effects.py` -/

/-- Clamp an integer channel value to `[0, 255]`
(`max(0, min(255, v))`). -/
def clamp255 (z : ℤ) : ℕ := (max 0 (min 255 z)).toNat

/-- `add_scanlines(img, opacity, line_spacing)`: dark one-pixel lines at rows
`range(0, height, line_spacing)` with alpha `int(255 * opacity)` on a fresh
transparent layer, alpha-composited over the image. -/
def add_scanlines (opacity : ℚ) (line_spacing : ℕ) (img : Canvas) : Canvas :=
  let alpha := (pyint (255 * opacity)).toNat
  let layer : CanvasA :=
    ⟨img.width, img.height, fun _ y =>
      if y < img.height ∧ y % line_spacing = 0 then ⟨0, 0, 0, alpha⟩ else ⟨0, 0, 0, 0⟩⟩
  (alphaComposite img.toRGBA layer).toRGB

/-- `add_noise(img, intensity)`: per pixel, the same random offset
`random.randint(-noise_range, noise_range)` is added to all three channels,
each clamped to `[0, 255]`.  The `randint` range contract is encoded by
clamping the abstract random stream into `[-noise_range, noise_range]`. -/
def add_noise (p : Prims) (intensity : ℚ) (img : Canvas) : Canvas :=
  let noiseRange := pyint (255 * intensity)
  ⟨img.width, img.height, fun x y =>
    let v := max (-noiseRange) (min noiseRange (p.noiseAt x y))
    let orig := img.pix x y
    ⟨clamp255 ((orig.r : ℤ) + v), clamp255 ((orig.g : ℤ) + v), clamp255 ((orig.b : ℤ) + v)⟩⟩

/-- `add_chromatic_aberration(img, offset)` from `src/lib/effects.py`:
`r, g, b = img.split()`; the red channel is cropped at `(offset, 0, w, h)`
and pasted at `(0, 0)` onto a black `L` image (a shift left), the blue
channel is cropped at `(0, 0, w - offset, h)` and pasted at `(offset, 0)`
(a shift right), the green channel is reused as is, and the three are merged
back into an RGB image.  (All call sites pass a nonnegative `offset`.) -/
def add_chromatic_aberration (offset : ℕ) (img : Canvas) : Canvas :=
  let w := img.width
  ⟨w, img.height, fun x y =>
    ⟨if x + offset < w then (img.pix (x + offset) y).r else 0,
     (img.pix x y).g,
     if offset ≤ x ∧ x < offset + (w - offset) then (img.pix (x - offset) y).b else 0⟩⟩

/-- One glitch strip: rows `[y_start, min(y_start + strip_height, height))`
of the result are the original image's rows rotated horizontally by
`offset` (wraparound, via the two crop/paste calls). -/
def glitch_strip (img : Canvas) (yStart stripHeight off : ℤ) (old : Pix) : Pix :=
  let yEnd := min (yStart + stripHeight) (img.height : ℤ)
  fun x y =>
    if yStart ≤ (y : ℤ) ∧ (y : ℤ) < yEnd then
      img.pix (((x : ℤ) - off).emod (img.width : ℤ)).toNat y
    else old x y

/-- `add_glitch_strips(img, num_strips, max_offset)`: `num_strips` random
horizontal bands, each rotated by a random signed offset; strips are always
cut from the original image and pasted into the running result.  The
`randint` range contracts are encoded by clamping the abstract draws. -/
def add_glitch_strips (p : Prims) (num_strips : ℕ) (max_offset : ℤ) (img : Canvas) : Canvas :=
  ⟨img.width, img.height,
    (List.range num_strips).foldl
      (fun acc i =>
        let r := p.stripAt i
        let yStart := max 0 (min ((img.height : ℤ) - 30) r.1)
        let stripHeight := max 5 (min 25 r.2.1)
        let off := max (-max_offset) (min max_offset r.2.2)
        glitch_strip img yStart stripHeight off acc)
      img.pix⟩

/-- `ImageChops.multiply` on one channel followed by the
`Image.eval(c, lambda x: min(255, int(x * 255 / 200)))` renormalisation of
`add_vignette`. -/
def vignette_channel (m c : ℕ) : ℕ := min 255 (div255 (c * m) * 255 / 200)

/-- `add_vignette(img, strength)`: an `L`-mode radial mask built from 50
concentric filled ellipses (brightness
`int(255 * (1 - strength * inv_progress ** 1.5))`), multiplied per channel
against the image and renormalised.  (`max_dist` in the source is computed
but never used.) -/
def add_vignette (p : Prims) (strength : ℚ) (img : Canvas) : Canvas :=
  let cx : ℕ := img.width / 2
  let cy : ℕ := img.height / 2
  let mask : PixL :=
    (List.range 50).foldl
      (fun acc i =>
        let inv : ℚ := 1 - (i : ℚ) / 50
        let rx := pyint ((cx : ℚ) * (1 + inv * (8/10)))
        let ry := pyint ((cy : ℚ) * (1 + inv * (8/10)))
        let brightness := (pyint (255 * (1 - strength * p.pow15 inv))).toNat
        fillEllipseL ((cx : ℤ) - rx) ((cy : ℤ) - ry) ((cx : ℤ) + rx) ((cy : ℤ) + ry)
          brightness acc)
      (fun _ _ => 255)
  ⟨img.width, img.height, fun x y =>
    let m := mask x y
    let px := img.pix x y
    ⟨vignette_channel m px.r, vignette_channel m px.g, vignette_channel m px.b⟩⟩

/-- PIL `RGB → L` conversion (ITU-R 601-2, as in Pillow's `convert('L')`). -/
def grayL (c : RGBc) : ℕ := (19595 * c.r + 38470 * c.g + 7471 * c.b + 32768) / 65536

/-- One channel of `Image.blend(degenerate, image, factor)` as used by
`ImageEnhance` (extrapolating for factors above 1, clipped to `[0, 255]`). -/
def blend_channel (factor : ℚ) (d v : ℕ) : ℕ :=
  clamp255 (pyint ((d : ℚ) + factor * ((v : ℚ) - (d : ℚ))))

/-- Sum of the `L`-converted pixels of an image (for `ImageStat` mean). -/
def sumGray (c : Canvas) : ℕ :=
  ((List.range c.height).map
    (fun y => ((List.range c.width).map (fun x => grayL (c.pix x y))).sum)).sum

/-- `ImageStat.Stat(image.convert('L')).mean[0]`. -/
def meanGray (c : Canvas) : ℚ := (sumGray c : ℚ) / ((c.width * c.height : ℕ) : ℚ)

/-- `add_color_boost(img, saturation, contrast)`: `ImageEnhance.Color` (blend
with the grayscale degenerate) then `ImageEnhance.Contrast` (blend with the
solid gray of the rounded mean luminance). -/
def add_color_boost (saturation contrast : ℚ) (img : Canvas) : Canvas :=
  let colored : Canvas :=
    ⟨img.width, img.height, fun x y =>
      let px := img.pix x y
      let d := grayL px
      ⟨blend_channel saturation d px.r, blend_channel saturation d px.g,
       blend_channel saturation d px.b⟩⟩
  let m := (pyint (meanGray colored + 1/2)).toNat
  ⟨colored.width, colored.height, fun x y =>
    let px := colored.pix x y
    ⟨blend_channel contrast m px.r, blend_channel contrast m px.g,
     blend_channel contrast m px.b⟩⟩

/-- `apply_all_effects(img, scanlines, noise, chromatic, glitch, vignette,
color_boost)` from `src/lib/effects.py`: the fixed-order pipeline
color boost → chromatic aberration → glitch strips → scanlines → noise →
vignette, each stage guarded by its flag. -/
def apply_all_effects (p : Prims) (scanlines noise chromatic glitch vignette color_boost : Bool)
    (img : Canvas) : Canvas :=
  let img1 := if color_boost then add_color_boost (12/10) (105/100) img else img
  let img2 := if chromatic then add_chromatic_aberration 2 img1 else img1
  let img3 := if glitch then add_glitch_strips p 3 15 img2 else img2
  let img4 := if scanlines then add_scanlines (12/100) 3 img3 else img3
  let img5 := if noise then add_noise p (3/100) img4 else img4
  if vignette then add_vignette p (35/100) img5 else img5

/-! ### `src/lib/elements.py` — background layers -/

/-- The six gradient color stops of `draw_gradient_sky` (top to bottom). -/
def gradient_colors : List RGBc :=
  [⟨20, 0, 50⟩, ⟨75, 0, 130⟩, ⟨185, 103, 255⟩, ⟨255, 113, 206⟩,
   ⟨255, 151, 128⟩, ⟨255, 200, 100⟩]

/-- `section = min(int(y / section_height), num_sections - 1)` with
`section_height = height / num_sections` and `num_sections = 5`. -/
def sky_section (height y : ℕ) : ℕ :=
  min (pyint ((y : ℚ) / ((height : ℚ) / 5))).toNat 4

/-- One channel of a gradient row:
`int(c1 + (c2 - c1) * section_progress)`. -/
def sky_row_channel (c1 c2 : ℕ) (sp : ℚ) : ℕ :=
  (pyint ((c1 : ℚ) + ((c2 : ℚ) - (c1 : ℚ)) * sp)).toNat

/-- The fill color of gradient row `y` in `draw_gradient_sky`. -/
def sky_row (height y : ℕ) : RGBc :=
  let sectionHeight : ℚ := (height : ℚ) / 5
  let sect := sky_section height y
  let sp : ℚ := ((y : ℚ) - (sect : ℚ) * sectionHeight) / sectionHeight
  let c1 := gradient_colors.getD sect ⟨0, 0, 0⟩
  let c2 := gradient_colors.getD (sect + 1) ⟨0, 0, 0⟩
  ⟨sky_row_channel c1.r c2.r sp, sky_row_channel c1.g c2.g sp,
   sky_row_channel c1.b c2.b sp⟩

/-- `draw_gradient_sky(img)`: one full-width horizontal line per row
`y in range(height)`, drawn in place. -/
def draw_gradient_sky (img : Canvas) : Canvas :=
  ⟨img.width, img.height,
    (List.range img.height).foldl
      (fun acc y => drawHLineRGB y (sky_row img.height y) acc) img.pix⟩

/-- `draw_sun(img)` with the default center/radius: radial disc of shrinking
filled ellipses, transparent stripe cutouts via `putpixel`, and a halo of 30
low-alpha ellipses composited beneath the disc. -/
def draw_sun (img : Canvas) : Canvas :=
  let w := img.width
  let h := img.height
  let cx : ℤ := ((w / 2 : ℕ) : ℤ)
  let cy : ℤ := pyint ((h : ℚ) * (45/100))
  let radius : ℤ := pyint (((min w h : ℕ) : ℚ) * (18/100))
  let sunPix : PixA :=
    ((List.range radius.toNat).map (fun k => radius - (k : ℤ))).foldl
      (fun acc (r : ℤ) =>
        let progress : ℚ := (r : ℚ) / (radius : ℚ)
        let col : RGBAc :=
          ⟨255, (pyint (220 * progress + 100 * (1 - progress))).toNat,
           (pyint (50 + 150 * (1 - progress))).toNat, 255⟩
        fillEllipseA (cx - r) (cy - r) (cx + r) (cy + r) col acc)
      (fun _ _ => ⟨0, 0, 0, 0⟩)
  let stripeGap := pydiv radius 8
  let stripeHeight := pydiv stripeGap 2
  let yOffset := fun (i : ℕ) => pyint ((radius : ℚ) * (2/10)) + (i : ℤ) * stripeGap
  let stripeIdx :=
    ([1, 2, 3, 4, 5, 6, 7] : List ℕ).takeWhile
      (fun i => decide (yOffset i - stripeHeight ≤ radius))
  let sunPix2 : PixA :=
    stripeIdx.foldl
      (fun acc i =>
        let y1 := cy + yOffset i - stripeHeight
        let y2 := cy + yOffset i
        fun x y =>
          if y1 ≤ (y : ℤ) ∧ (y : ℤ) < min y2 (cy + radius) ∧
              cx - radius ≤ (x : ℤ) ∧ (x : ℤ) ≤ cx + radius ∧
              ((x : ℤ) - cx) ^ 2 + ((y : ℤ) - cy) ^ 2 ≤ radius ^ 2 then
            ⟨0, 0, 0, 0⟩
          else acc x y)
      sunPix
  let glowPix : PixA :=
    ((List.range 30).map (fun k => 30 - k)).foldl
      (fun acc (i : ℕ) =>
        let alpha := (pyint (8 * ((30 : ℚ) - (i : ℚ)) / 30)).toNat
        fillEllipseA (cx - radius - (i : ℤ) * 3) (cy - radius - (i : ℤ) * 3)
          (cx + radius + (i : ℤ) * 3) (cy + radius + (i : ℤ) * 3)
          ⟨255, 180, 100, alpha⟩ acc)
      (fun _ _ => ⟨0, 0, 0, 0⟩)
  (alphaComposite (alphaComposite img.toRGBA ⟨w, h, glowPix⟩) ⟨w, h, sunPix2⟩).toRGB

/-- `draw_perspective_grid(img)` with defaults: a fan of 21 radial lines from
the vanishing point and up to 15 horizontal perspective lines (rows spaced by
the float power `(i / 15) ** 1.8`), drawn in cyan on a fresh layer, with a
blurred copy composited beneath. -/
def draw_perspective_grid (p : Prims) (img : Canvas) : Canvas :=
  let w := img.width
  let h := img.height
  let horizonY : ℤ := pyint ((h : ℚ) * (55/100))
  let vpx : ℤ := ((w / 2 : ℕ) : ℤ)
  let spread : ℚ := (w : ℚ) * (3/2)
  let radials : PixA → PixA := fun base =>
    (List.range 21).foldl
      (fun acc (i : ℕ) =>
        let xBottom : ℤ := pyint (-(spread / 2) + (spread / 20) * (i : ℚ) + (w : ℚ) / 2)
        let dist : ℚ := |(i : ℚ) - 10| / 10
        let alpha := (pyint (255 * (1 - dist * (5/10)))).toNat
        p.linePix (vpx : ℚ) (horizonY : ℚ) (xBottom : ℚ) (h : ℚ) ⟨1, 205, 254, alpha⟩ 2 acc)
      base
  let horizontals : PixA → PixA := fun base =>
    ((List.range 15).map (· + 1)).foldl
      (fun acc (i : ℕ) =>
        let progress := p.pow18 ((i : ℚ) / 15)
        let y := pyint ((horizonY : ℚ) + ((h : ℚ) - (horizonY : ℚ)) * progress)
        if y ≤ horizonY then acc
        else
          let t : ℚ := ((y : ℚ) - (horizonY : ℚ)) / ((h : ℚ) - (horizonY : ℚ))
          let xLeft := pyint ((vpx : ℚ) - spread / 2 * t)
          let xRight := pyint ((vpx : ℚ) + spread / 2 * t)
          let alpha := (pyint (100 + 155 * progress)).toNat
          p.linePix (xLeft : ℚ) (y : ℚ) (xRight : ℚ) (y : ℚ) ⟨1, 205, 254, alpha⟩ 2 acc)
      base
  let gridLayer : CanvasA := ⟨w, h, horizontals (radials (fun _ _ => ⟨0, 0, 0, 0⟩))⟩
  let glow : CanvasA := ⟨gridLayer.width, gridLayer.height, p.blurA 3 gridLayer⟩
  (alphaComposite (alphaComposite img.toRGBA glow) gridLayer).toRGB

/-- `draw_palm_trees(img, num_trees)`: up to four preset silhouettes drawn in
place (the per-tree draws are the `palmPix` primitive). -/
def draw_palm_trees (p : Prims) (img : Canvas) (num_trees : ℕ) : Canvas :=
  let w := img.width
  let h := img.height
  let trees : List (ℤ × ℤ × Bool) :=
    [(pyint ((w : ℚ) * (8/100)), pyint ((h : ℚ) * (5/10)), false),
     (pyint ((w : ℚ) * (92/100)), pyint ((h : ℚ) * (45/100)), true),
     (pyint ((w : ℚ) * (15/100)), pyint ((h : ℚ) * (35/100)), false),
     (pyint ((w : ℚ) * (85/100)), pyint ((h : ℚ) * (38/100)), true)]
  let baseY : ℤ := pyint ((h : ℚ) * (65/100))
  ⟨w, h,
    (trees.take num_trees).foldl
      (fun acc t => p.palmPix t.1 baseY t.2.1 t.2.2 acc) img.pix⟩

/-- `draw_geometric_shapes(img)`: three outlined triangles and two outlined
circles at preset positions on a fresh layer, with a blurred copy composited
beneath. -/
def draw_geometric_shapes (p : Prims) (img : Canvas) : Canvas :=
  let w := img.width
  let h := img.height
  let base : PixA := fun _ _ => ⟨0, 0, 0, 0⟩
  let t1 := p.triPix ((pyint ((w : ℚ) * (2/10)) : ℤ) : ℚ) ((pyint ((h : ℚ) * (25/100)) : ℤ) : ℚ)
    40 0 ⟨255, 113, 206, 200⟩ base
  let t2 := p.triPix ((pyint ((w : ℚ) * (8/10)) : ℤ) : ℚ) ((pyint ((h : ℚ) * (3/10)) : ℤ) : ℚ)
    35 30 ⟨1, 205, 254, 200⟩ t1
  let t3 := p.triPix ((pyint ((w : ℚ) * (75/100)) : ℤ) : ℚ) ((pyint ((h : ℚ) * (15/100)) : ℤ) : ℚ)
    25 15 ⟨185, 103, 255, 200⟩ t2
  let c1x := pyint ((w : ℚ) * (25/100))
  let c1y := pyint ((h : ℚ) * (35/100))
  let c4 := p.ellipseOutline (c1x - 20) (c1y - 20) (c1x + 20) (c1y + 20) ⟨77, 238, 234, 200⟩ 2 t3
  let c2x := pyint ((w : ℚ) * (7/10))
  let c2y := pyint ((h : ℚ) * (2/10))
  let c5 := p.ellipseOutline (c2x - 15) (c2y - 15) (c2x + 15) (c2y + 15) ⟨255, 0, 128, 200⟩ 2 c4
  let shapesLayer : CanvasA := ⟨w, h, c5⟩
  let glow : CanvasA := ⟨shapesLayer.width, shapesLayer.height, p.blurA 5 shapesLayer⟩
  (alphaComposite (alphaComposite img.toRGBA glow) shapesLayer).toRGB

/-! ### `src/lib/wallpaper.py` — composer -/

/-- The goals configuration (`goals_config` dict); `none` marks an absent
key, so each `goals_config.get(k, default)` is `Option.getD`. -/
structure GoalsConfig where
  title : Option String
  resolution : Option (ℕ × ℕ)
  goals : Option (List Goal)

/-- The goal loop of `generate_wallpaper`:
`for i, goal in enumerate(goals): y = 130 + i * 100;
if y + 100 < height * 0.5: img = draw_goal(img, goal, 100, y, goal_width, i)`. -/
def goal_loop_aux (p : Prims) (height : ℕ) (goalX goalW : ℤ) :
    ℕ → List Goal → Canvas → Canvas
  | _, [], img => img
  | i, g :: gs, img =>
    let y : ℤ := 130 + (i : ℤ) * 100
    let img2 :=
      if ((y : ℚ) + 100 < (height : ℚ) * (5/10)) then
        draw_goal p img g goalX y goalW i
      else img
    goal_loop_aux p height goalX goalW (i + 1) gs img2

/-- `generate_wallpaper(goals_config)` from `src/lib/wallpaper.py`: defaults
`resolution=[1920, 1080]`, `title='GOALS'`, `goals=[]`; base black RGB canvas;
sky → sun → shapes → palm trees → grid → title → goal loop → effects
(with `glitch=False`). -/
def generate_wallpaper (p : Prims) (cfg : GoalsConfig) : Canvas :=
  let res := cfg.resolution.getD (1920, 1080)
  let width := res.1
  let height := res.2
  let img0 := newRGB width height ⟨0, 0, 0⟩
  let img1 := draw_gradient_sky img0
  let img2 := draw_sun img1
  let img3 := draw_geometric_shapes p img2
  let img4 := draw_palm_trees p img3 4
  let img5 := draw_perspective_grid p img4
  let img6 := draw_title p img5 (cfg.title.getD "GOALS") 40
  let goals := cfg.goals.getD []
  let goalW : ℤ := min 600 ((width : ℤ) - 200)
  let img7 := goal_loop_aux p height 100 goalW 0 goals img6
  apply_all_effects p true true true false true true img7

/-! ### Spec-side definitions (for refinement comparisons)

These follow the wording of `spec.md`, to be compared against the
definitions translated from the source. -/

/-- Modelled from the spec's words: "Computes `progress = clamp(current/target,
0, 1)` (guard target<=0 → progress=0)". -/
def spec_clamped_progress (g : Goal) : ℚ :=
  if 0 < goal_target g then min (max (goal_current g / goal_target g) 0) 1 else 0

/-- Spec-side pipeline stage: color boost when enabled, identity otherwise. -/
def color_boost_stage (enabled : Bool) (img : Canvas) : Canvas :=
  if enabled then add_color_boost (12/10) (105/100) img else img

/-- Spec-side pipeline stage: chromatic aberration when enabled. -/
def chromatic_stage (enabled : Bool) (img : Canvas) : Canvas :=
  if enabled then add_chromatic_aberration 2 img else img

/-- Spec-side pipeline stage: glitch strips when enabled. -/
def glitch_stage (p : Prims) (enabled : Bool) (img : Canvas) : Canvas :=
  if enabled then add_glitch_strips p 3 15 img else img

/-- Spec-side pipeline stage: scanlines when enabled. -/
def scanline_stage (enabled : Bool) (img : Canvas) : Canvas :=
  if enabled then add_scanlines (12/100) 3 img else img

/-- Spec-side pipeline stage: noise when enabled. -/
def noise_stage (p : Prims) (enabled : Bool) (img : Canvas) : Canvas :=
  if enabled then add_noise p (3/100) img else img

/-- Spec-side pipeline stage: vignette when enabled. -/
def vignette_stage (p : Prims) (enabled : Bool) (img : Canvas) : Canvas :=
  if enabled then add_vignette p (35/100) img else img

/-- The largest per-channel difference between two gradient stops. -/
def stop_delta (c1 c2 : RGBc) : ℤ :=
  max |(c2.r : ℤ) - (c1.r : ℤ)| (max |(c2.g : ℤ) - (c1.g : ℤ)| |(c2.b : ℤ) - (c1.b : ℤ)|)

/-- The spec's "maximum per-stop delta" over the gradient color stops. -/
def max_stop_delta : ℤ :=
  ((gradient_colors.zip gradient_colors.tail).map
    (fun pr => stop_delta pr.1 pr.2)).foldl max 0

/-- A concrete interpretation of the abstract library primitives, used by the
witnesses: text/blur/line/polygon draws leave pixels unchanged, powers and
random draws are zero. -/
def trivPrims : Prims :=
  ⟨fun _ _ _ _ _ old => old, fun _ _ => 0, fun _ c => c.pix,
   fun _ _ _ _ _ _ old => old, fun _ _ _ _ _ old => old,
   fun _ _ _ _ _ _ old => old, fun _ _ _ _ _ _ _ old => old,
   fun _ _ _ _ old => old, fun _ => 0, fun _ => 0, fun _ _ => 0,
   fun _ => (0, 5, 0), fun _ => ""⟩

/-- A small concrete RGB canvas with distinct channel data, used by the
witnesses. -/
def testImg : Canvas := ⟨4, 3, fun x y => ⟨x + 10 * y, x + 100, x + 200⟩⟩

/-! ### Helper lemmas -/

theorem pyint_of_nonneg {q : ℚ} (h : 0 ≤ q) : pyint q = ⌊q⌋ := if_pos h

theorem pyint_intCast (n : ℤ) : pyint (n : ℚ) = n := by
  unfold pyint
  split
  · exact Int.floor_intCast n
  · rw [← Int.cast_neg, Int.floor_intCast, neg_neg]

theorem pyint_zero : pyint 0 = 0 := by
  rw [pyint_of_nonneg le_rfl, Int.floor_zero]

theorem pyint_mono {q r : ℚ} (h : q ≤ r) : pyint q ≤ pyint r := by
  unfold pyint
  by_cases hq : 0 ≤ q
  · rw [if_pos hq, if_pos (le_trans hq h)]
    exact Int.floor_le_floor h
  · rw [if_neg hq]
    by_cases hr : 0 ≤ r
    · rw [if_pos hr]
      have h1 : 0 ≤ ⌊-q⌋ := Int.floor_nonneg.mpr (by linarith [not_le.mp hq])
      have h2 : (0 : ℤ) ≤ ⌊r⌋ := Int.floor_nonneg.mpr hr
      omega
    · rw [if_neg hr]
      have : ⌊-r⌋ ≤ ⌊-q⌋ := Int.floor_le_floor (by linarith)
      omega

theorem pyint_nonpos {q : ℚ} (h : q ≤ 0) : pyint q ≤ 0 := by
  have := pyint_mono h
  rwa [pyint_zero] at this

theorem width_ite (b : Bool) (f : Canvas → Canvas) (c : Canvas)
    (hf : (f c).width = c.width) : (if b then f c else c).width = c.width := by
  cases b <;> simp [hf]

theorem height_ite (b : Bool) (f : Canvas → Canvas) (c : Canvas)
    (hf : (f c).height = c.height) : (if b then f c else c).height = c.height := by
  cases b <;> simp [hf]

theorem apply_all_effects_width (p : Prims) (s n ch g v cb : Bool) (img : Canvas) :
    (apply_all_effects p s n ch g v cb img).width = img.width := by
  unfold apply_all_effects
  rw [width_ite v (add_vignette p (35/100)) _ rfl,
      width_ite n (add_noise p (3/100)) _ rfl,
      width_ite s (add_scanlines (12/100) 3) _ rfl,
      width_ite g (add_glitch_strips p 3 15) _ rfl,
      width_ite ch (add_chromatic_aberration 2) _ rfl,
      width_ite cb (add_color_boost (12/10) (105/100)) _ rfl]

theorem apply_all_effects_height (p : Prims) (s n ch g v cb : Bool) (img : Canvas) :
    (apply_all_effects p s n ch g v cb img).height = img.height := by
  unfold apply_all_effects
  rw [height_ite v (add_vignette p (35/100)) _ rfl,
      height_ite n (add_noise p (3/100)) _ rfl,
      height_ite s (add_scanlines (12/100) 3) _ rfl,
      height_ite g (add_glitch_strips p 3 15) _ rfl,
      height_ite ch (add_chromatic_aberration 2) _ rfl,
      height_ite cb (add_color_boost (12/10) (105/100)) _ rfl]

/-! ### Claim theorems -/

/-- C6: calling the post-effect pipeline (`apply_all_effects`) with every
effect flag disabled returns a canvas pixel-identical to its input — the
pipeline with no enabled effects is the identity. -/
theorem C6_pipeline_disabled_is_identity (p : Prims) (img : Canvas) :
    apply_all_effects p false false false false false false img = img := rfl

/-- C7: for every canvas and every combination of flags,
`apply_all_effects` equals the composition of the enabled effects in the
fixed order color boost → chromatic aberration → glitch strips → scanlines
→ noise → vignette, each later stage consuming the earlier stages'
output canvas. -/
theorem C7_pipeline_is_ordered_composition (p : Prims)
    (scan noi chrom glit vig boost : Bool) (img : Canvas) :
    apply_all_effects p scan noi chrom glit vig boost img =
      vignette_stage p vig (noise_stage p noi (scanline_stage scan
        (glitch_stage p glit (chromatic_stage chrom
          (color_boost_stage boost img))))) := rfl

/-- C9: every effect of the pipeline — color boost, chromatic aberration,
glitch strips, scanlines, noise, vignette — and the whole pipeline
`apply_all_effects` (hence any composition of the effects) returns a canvas
with exactly the input's pixel dimensions, and the result is a 3-channel RGB
canvas. -/
theorem C9_effects_preserve_dimensions (p : Prims)
    (sat con intensity opacity strength : ℚ) (spacing nStrips : ℕ)
    (maxOff : ℤ) (off : ℕ) (s n ch g v cb : Bool) (img : Canvas) :
    (add_color_boost sat con img).width = img.width ∧
    (add_color_boost sat con img).height = img.height ∧
    (add_chromatic_aberration off img).width = img.width ∧
    (add_chromatic_aberration off img).height = img.height ∧
    (add_glitch_strips p nStrips maxOff img).width = img.width ∧
    (add_glitch_strips p nStrips maxOff img).height = img.height ∧
    (add_scanlines opacity spacing img).width = img.width ∧
    (add_scanlines opacity spacing img).height = img.height ∧
    (add_noise p intensity img).width = img.width ∧
    (add_noise p intensity img).height = img.height ∧
    (add_vignette p strength img).width = img.width ∧
    (add_vignette p strength img).height = img.height ∧
    (apply_all_effects p s n ch g v cb img).width = img.width ∧
    (apply_all_effects p s n ch g v cb img).height = img.height ∧
    (apply_all_effects p s n ch g v cb img).channels = 3 := by
  refine ⟨rfl, rfl, rfl, rfl, rfl, rfl, rfl, rfl, rfl, rfl, rfl, rfl,
    apply_all_effects_width p s n ch g v cb img,
    apply_all_effects_height p s n ch g v cb img, rfl⟩

/-- C5: `add_chromatic_aberration` leaves the green channel byte-identical,
moves the red channel left by `offset` (result pixel `x` reads source pixel
`x + offset`), moves the blue channel right by `offset` (result pixel `x`
reads source pixel `x - offset`), and fills the pixels exposed at the
shifted edges with black, with no wraparound. -/
theorem C5_chromatic_aberration_channels (img : Canvas) (offset x y : ℕ)
    (hx : x < img.width) :
    ((add_chromatic_aberration offset img).pix x y).g = (img.pix x y).g ∧
    ((add_chromatic_aberration offset img).pix x y).r =
      (if x + offset < img.width then (img.pix (x + offset) y).r else 0) ∧
    ((add_chromatic_aberration offset img).pix x y).b =
      (if offset ≤ x then (img.pix (x - offset) y).b else 0) ∧
    (add_chromatic_aberration offset img).width = img.width ∧
    (add_chromatic_aberration offset img).height = img.height := by
  refine ⟨rfl, rfl, ?_, rfl, rfl⟩
  show (if offset ≤ x ∧ x < offset + (img.width - offset)
        then (img.pix (x - offset) y).b else 0) = _
  by_cases hcase : offset ≤ x
  · rw [if_pos ⟨hcase, by omega⟩, if_pos hcase]
  · rw [if_neg (fun hc => hcase hc.1), if_neg hcase]

/-- Witness for C5 at a concrete image, offset and pixel. -/
theorem C5_witness :
    (3 < testImg.width) ∧
    (((add_chromatic_aberration 1 testImg).pix 3 0).g = (testImg.pix 3 0).g ∧
     ((add_chromatic_aberration 1 testImg).pix 3 0).r =
       (if 3 + 1 < testImg.width then (testImg.pix (3 + 1) 0).r else 0) ∧
     ((add_chromatic_aberration 1 testImg).pix 3 0).b =
       (if 1 ≤ 3 then (testImg.pix (3 - 1) 0).b else 0) ∧
     (add_chromatic_aberration 1 testImg).width = testImg.width ∧
     (add_chromatic_aberration 1 testImg).height = testImg.height) :=
  ⟨by decide, C5_chromatic_aberration_channels testImg 1 3 0 (by decide)⟩

theorem bar_layer_pw_nonpos (p : Prims) (w h : ℕ) (x y width height : ℤ)
    (pw : ℤ) (barColor bgColor : RGBc) (glow : Bool) (hpw : pw ≤ 0) :
    bar_layer_pw p w h x y width height pw barColor bgColor glow =
      bar_track_layer p w h x y width height barColor bgColor := by
  unfold bar_layer_pw
  rw [if_neg (not_lt.mpr hpw)]

/-- C3: for a goal with `current >= target > 0` the progress bar's
`progress_width` equals the full track width (clamped at 100%), and for any
progress value whatsoever the fill width never exceeds the track width. -/
theorem C3_bar_full_when_over_target (nm : Option String) (cur tgt : ℚ) (width : ℤ)
    (htgt : 0 < tgt) (hcur : tgt ≤ cur) (hw : 0 ≤ width) :
    progress_width width (goal_progress ⟨nm, some cur, some tgt⟩) = width ∧
    ∀ q : ℚ, progress_width width q ≤ width := by
  have hgp : goal_progress ⟨nm, some cur, some tgt⟩ = cur / tgt := by
    unfold goal_progress
    rw [show goal_target ⟨nm, some cur, some tgt⟩ = tgt from rfl, if_pos htgt]
    rfl
  constructor
  · rw [hgp]
    have h1 : (1 : ℚ) ≤ cur / tgt := (one_le_div htgt).mpr hcur
    rw [progress_width, min_eq_right h1, mul_one, pyint_intCast]
  · intro q
    have hle : (width : ℚ) * min q 1 ≤ (width : ℚ) := by
      calc (width : ℚ) * min q 1 ≤ (width : ℚ) * 1 :=
            mul_le_mul_of_nonneg_left (min_le_right q 1) (by exact_mod_cast hw)
        _ = (width : ℚ) := mul_one _
    calc progress_width width q ≤ pyint (width : ℚ) := pyint_mono hle
      _ = width := pyint_intCast width

/-- Witness for C3 at the concrete goal `current=150, target=100` and track
width 480. -/
theorem C3_witness :
    ((0 : ℚ) < 100) ∧ ((100 : ℚ) ≤ 150) ∧ ((0 : ℤ) ≤ 480) ∧
    (progress_width 480 (goal_progress ⟨none, some 150, some 100⟩) = 480 ∧
     ∀ q : ℚ, progress_width 480 q ≤ 480) :=
  ⟨by norm_num, by norm_num, by norm_num,
   C3_bar_full_when_over_target none 150 100 480 (by norm_num) (by norm_num) (by norm_num)⟩

/-- C10 counterexample: the claim fails at a reachable call with a negative
track width.  With canvas width 240 the composer passes goal width
`min(600, 240 - 200) = 40`, so `draw_progress_bar` receives track width
`40 - 120 = -80`; for the goal `{current: -50, target: 100}` progress is
`-1/2 <= 0`, yet `progress_width = int(-80 * min(-0.5, 1.0)) = 40 > 0`, so
the guarded fill loop draws forty lines and the glow branch runs (and on
Pillow versions that validate boxes, the inverted track box itself raises
`ValueError`) — contradicting "no fill pixels and no fill glow are drawn
... and no exception is raised". -/
theorem C10_counterexample :
    min 600 ((240 : ℤ) - 200) - 120 = -80 ∧
    goal_progress ⟨none, some (-50), some 100⟩ = -(1/2) ∧
    goal_progress ⟨none, some (-50), some 100⟩ ≤ 0 ∧
    progress_width (-80) (goal_progress ⟨none, some (-50), some 100⟩) = 40 ∧
    fill_line_xs 100 (progress_width (-80) (goal_progress ⟨none, some (-50), some 100⟩)) ≠ [] := by
  have hgp : goal_progress ⟨none, some (-50), some 100⟩ = -(1/2) := by
    norm_num [goal_progress, goal_target, goal_current]
  have hpw : progress_width (-80) (goal_progress ⟨none, some (-50), some 100⟩) = 40 := by
    rw [hgp]
    unfold progress_width
    rw [min_eq_left (by norm_num)]
    norm_num [pyint]
  refine ⟨by norm_num, hgp, by rw [hgp]; norm_num, hpw, ?_⟩
  rw [hpw]
  decide

/-- C10 amended: when `progress <= 0` and the track width is nonnegative
(Pillow would reject a negative-width track box anyway, and the negative
case really does draw fill lines — see `C10_counterexample`),
`progress_width <= 0`, so no fill line and no fill glow is drawn and the
bar renders as the track alone; moreover no fill line of any call ever
starts left of the track's start `x`. -/
theorem C10_no_fill_on_nonpositive_progress (p : Prims) (img : Canvas)
    (x y width height : ℤ) (barColor bgColor : RGBc) (glow : Bool) (progress : ℚ)
    (h1 : progress ≤ 0) (h2 : 0 ≤ width) :
    progress_width width progress ≤ 0 ∧
    fill_line_xs x (progress_width width progress) = [] ∧
    (∀ (q : ℚ) (z : ℤ), z ∈ fill_line_xs x (progress_width width q) → x ≤ z) ∧
    draw_progress_bar p img x y width height progress barColor bgColor glow =
      (alphaComposite img.toRGBA
        (bar_track_layer p img.width img.height x y width height barColor bgColor)).toRGB := by
  have hpw : progress_width width progress ≤ 0 := by
    unfold progress_width
    rw [min_eq_left (le_trans h1 zero_le_one)]
    have hle : (width : ℚ) * progress ≤ 0 := by
      calc (width : ℚ) * progress ≤ (width : ℚ) * 0 :=
            mul_le_mul_of_nonneg_left h1 (by exact_mod_cast h2)
        _ = 0 := mul_zero _
    exact pyint_nonpos hle
  refine ⟨hpw, ?_, ?_, ?_⟩
  · unfold fill_line_xs
    rw [if_neg (not_lt.mpr hpw)]
  · intro q z hz
    unfold fill_line_xs at hz
    split at hz
    · obtain ⟨i, _, rfl⟩ := List.mem_map.mp hz
      omega
    · simp at hz
  · unfold draw_progress_bar draw_progress_bar_pw
    rw [bar_layer_pw_nonpos p img.width img.height x y width height _ barColor bgColor glow hpw]

/-- Witness for C10 at progress `-1/2` on a concrete bar. -/
theorem C10_witness :
    ((-(1 : ℚ)/2) ≤ 0) ∧ ((0 : ℤ) ≤ 480) ∧
    (progress_width 480 (-(1 : ℚ)/2) ≤ 0 ∧
     fill_line_xs 5 (progress_width 480 (-(1 : ℚ)/2)) = [] ∧
     (∀ (q : ℚ) (z : ℤ), z ∈ fill_line_xs 5 (progress_width 480 q) → 5 ≤ z) ∧
     draw_progress_bar trivPrims testImg 5 10 480 20 (-(1 : ℚ)/2) color_pink ⟨30, 20, 50⟩ true =
       (alphaComposite testImg.toRGBA
         (bar_track_layer trivPrims testImg.width testImg.height 5 10 480 20
           color_pink ⟨30, 20, 50⟩)).toRGB) :=
  ⟨by norm_num, by norm_num,
   C10_no_fill_on_nonpositive_progress trivPrims testImg 5 10 480 20 color_pink
     ⟨30, 20, 50⟩ true (-(1 : ℚ)/2) (by norm_num) (by norm_num)⟩

/-- C2 counterexample.  Two divergences from
`clamp(current/target, 0, 1)`: (a) for the goal `{current: 150, target: 100}`
the percentage label renders `int(progress * 100) = 150`, not the `100` the
clamp would give; (b) at the reachable call with canvas width 240 the bar
width is `min(600, 240 - 200) - 120 = -80`, and for
`{current: -50, target: 100}` the unclamped progress `-1/2` yields
`progress_width = int(-80 * -0.5) = 40` — forty fill lines — where the
clamped progress yields none.  Both force the amendment. -/
theorem C2_counterexample :
    percent_label ⟨none, some 150, some 100⟩ = 150 ∧
    pyint (spec_clamped_progress ⟨none, some 150, some 100⟩ * 100) = 100 ∧
    percent_label ⟨none, some 150, some 100⟩ ≠
      pyint (spec_clamped_progress ⟨none, some 150, some 100⟩ * 100) ∧
    progress_width (-80) (goal_progress ⟨none, some (-50), some 100⟩) = 40 ∧
    progress_width (-80) (spec_clamped_progress ⟨none, some (-50), some 100⟩) = 0 ∧
    fill_line_xs 100 (progress_width (-80) (goal_progress ⟨none, some (-50), some 100⟩)) ≠
      fill_line_xs 100 (progress_width (-80) (spec_clamped_progress ⟨none, some (-50), some 100⟩)) := by
  have h1 : goal_progress ⟨none, some 150, some 100⟩ = 3/2 := by
    norm_num [goal_progress, goal_target, goal_current]
  have h2 : spec_clamped_progress ⟨none, some 150, some 100⟩ = 1 := by
    norm_num [spec_clamped_progress, goal_target, goal_current]
  have hgp : goal_progress ⟨none, some (-50), some 100⟩ = -(1/2) := by
    norm_num [goal_progress, goal_target, goal_current]
  have hsp : spec_clamped_progress ⟨none, some (-50), some 100⟩ = 0 := by
    norm_num [spec_clamped_progress, goal_target, goal_current]
  have hpw : progress_width (-80) (goal_progress ⟨none, some (-50), some 100⟩) = 40 := by
    rw [hgp]
    unfold progress_width
    rw [min_eq_left (by norm_num)]
    norm_num [pyint]
  have hpw0 : progress_width (-80) (spec_clamped_progress ⟨none, some (-50), some 100⟩) = 0 := by
    rw [hsp]
    unfold progress_width
    rw [min_eq_left zero_le_one, mul_zero, pyint_zero]
  refine ⟨?_, ?_, ?_, hpw, hpw0, ?_⟩
  · rw [percent_label, h1]
    norm_num [pyint]
  · rw [h2]
    norm_num [pyint]
  · rw [percent_label, h1, h2]
    norm_num [pyint]
  · rw [hpw, hpw0]
    decide

/-- `draw_progress_bar` depends on `progress` only through
`progress_width`. -/
theorem progress_width_congr (p : Prims) (img : Canvas)
    (x y width height : ℤ) (barColor bgColor : RGBc) (glow : Bool) {q r : ℚ}
    (h : progress_width width q = progress_width width r) :
    draw_progress_bar p img x y width height q barColor bgColor glow =
      draw_progress_bar p img x y width height r barColor bgColor glow := by
  unfold draw_progress_bar
  rw [h]

/-- C2 amended: for a nonnegative track width the bar fill renders exactly
as it would with `clamp(current/target, 0, 1)` (guard `target <= 0` gives
progress 0), and missing fields behave as the defaults `name="Goal"`,
`current=0`, `target=100`; the percentage label, however, uses the
unclamped progress and agrees with the clamped value only when
`0 <= current/target <= 1`.  The width restriction is forced: at a negative
track width (canvas width below 320) the unclamped fill diverges from the
clamped one — see `C2_counterexample`. -/
theorem C2_amended_progress_semantics (p : Prims) (img : Canvas)
    (x y width height : ℤ) (barColor bgColor : RGBc) (glow : Bool) (g : Goal)
    (hw : 0 ≤ width) :
    draw_progress_bar p img x y width height (goal_progress g) barColor bgColor glow =
      draw_progress_bar p img x y width height (spec_clamped_progress g) barColor bgColor glow ∧
    (goal_target g ≤ 0 → goal_progress g = 0) ∧
    (0 ≤ goal_progress g → goal_progress g ≤ 1 →
      percent_label g = pyint (spec_clamped_progress g * 100)) ∧
    draw_goal p img ⟨none, none, none⟩ x y width 0 =
      draw_goal p img ⟨some "Goal", some 0, some 100⟩ x y width 0 := by
  have hspec : ∀ h0 : 0 ≤ goal_progress g, goal_progress g ≤ 1 →
      spec_clamped_progress g = goal_progress g := by
    intro h0 h1
    unfold spec_clamped_progress
    by_cases ht : 0 < goal_target g
    · have hgp : goal_progress g = goal_current g / goal_target g := by
        unfold goal_progress; rw [if_pos ht]
      rw [hgp] at h0 h1
      rw [if_pos ht, max_eq_left h0, min_eq_left h1, hgp]
    · have hgp : goal_progress g = 0 := by
        unfold goal_progress; rw [if_neg ht]
      rw [if_neg ht, hgp]
  refine ⟨?_, ?_, ?_, ?_⟩
  · by_cases ht : 0 < goal_target g
    · have hgp : goal_progress g = goal_current g / goal_target g := by
        unfold goal_progress; rw [if_pos ht]
      have hsp : spec_clamped_progress g =
          min (max (goal_current g / goal_target g) 0) 1 := by
        unfold spec_clamped_progress; rw [if_pos ht]
      by_cases hneg : 0 ≤ goal_current g / goal_target g
      · apply progress_width_congr
        rw [hgp, hsp, max_eq_left hneg]
        unfold progress_width
        rw [min_assoc, min_self]
      · have hlt := not_le.mp hneg
        have hL : progress_width width (goal_progress g) ≤ 0 := by
          unfold progress_width
          rw [hgp, min_eq_left (by linarith : goal_current g / goal_target g ≤ 1)]
          refine pyint_nonpos ?_
          calc (width : ℚ) * (goal_current g / goal_target g) ≤ (width : ℚ) * 0 :=
                mul_le_mul_of_nonneg_left (le_of_lt hlt) (by exact_mod_cast hw)
            _ = 0 := mul_zero _
        have hR : progress_width width (spec_clamped_progress g) = 0 := by
          rw [hsp, max_eq_right (le_of_lt hlt)]
          unfold progress_width
          rw [min_eq_left zero_le_one, min_eq_left zero_le_one, mul_zero, pyint_zero]
        unfold draw_progress_bar draw_progress_bar_pw
        rw [bar_layer_pw_nonpos _ _ _ _ _ _ _ _ _ _ _ hL,
            bar_layer_pw_nonpos _ _ _ _ _ _ _ _ _ _ _ (le_of_eq hR)]
    · apply progress_width_congr
      have h1 : goal_progress g = 0 := by unfold goal_progress; rw [if_neg ht]
      have h2 : spec_clamped_progress g = 0 := by unfold spec_clamped_progress; rw [if_neg ht]
      rw [h1, h2]
  · intro h
    unfold goal_progress
    rw [if_neg (not_lt.mpr h)]
  · intro h0 h1
    rw [hspec h0 h1, percent_label]
  · rfl

/-- Witness for the amended C2 at the concrete goal `current=50,
target=200`. -/
theorem C2_witness :
    ((0 : ℤ) ≤ 480) ∧
    (draw_progress_bar trivPrims testImg 5 10 480 20 (goal_progress ⟨none, some 50, some 200⟩)
        color_pink ⟨30, 20, 50⟩ true =
      draw_progress_bar trivPrims testImg 5 10 480 20
        (spec_clamped_progress ⟨none, some 50, some 200⟩) color_pink ⟨30, 20, 50⟩ true ∧
     (goal_target ⟨none, some 50, some 200⟩ ≤ 0 → goal_progress ⟨none, some 50, some 200⟩ = 0) ∧
     (0 ≤ goal_progress ⟨none, some 50, some 200⟩ → goal_progress ⟨none, some 50, some 200⟩ ≤ 1 →
       percent_label ⟨none, some 50, some 200⟩ =
         pyint (spec_clamped_progress ⟨none, some 50, some 200⟩ * 100)) ∧
     draw_goal trivPrims testImg ⟨none, none, none⟩ 5 10 480 0 =
       draw_goal trivPrims testImg ⟨some "Goal", some 0, some 100⟩ 5 10 480 0) :=
  ⟨by norm_num,
   C2_amended_progress_semantics trivPrims testImg 5 10 480 20 color_pink ⟨30, 20, 50⟩
     true ⟨none, some 50, some 200⟩ (by norm_num)⟩

/-- From any index whose slot already starts at or below the cutoff, the
goal loop draws nothing: every later slot starts even lower. -/
theorem goal_loop_aux_skip (p : Prims) (height : ℕ) (gx gw : ℤ) :
    ∀ (gs : List Goal) (i : ℕ) (c : Canvas),
      (height : ℚ) * (5/10) ≤ 130 + (i : ℚ) * 100 →
      goal_loop_aux p height gx gw i gs c = c := by
  intro gs
  induction gs with
  | nil => intro i c _; rfl
  | cons g gs ih =>
    intro i c hle
    have hcond : ¬ (((130 + (i : ℤ) * 100 : ℤ) : ℚ) + 100 < (height : ℚ) * (5/10)) := by
      push_cast
      linarith
    simp only [goal_loop_aux]
    rw [if_neg hcond]
    exact ih (i + 1) c (by push_cast; linarith)

/-- The goal loop over a concatenation runs the two parts in sequence,
carrying the enumeration index. -/
theorem goal_loop_aux_append (p : Prims) (height : ℕ) (gx gw : ℤ) :
    ∀ (l1 l2 : List Goal) (i : ℕ) (c : Canvas),
      goal_loop_aux p height gx gw i (l1 ++ l2) c =
        goal_loop_aux p height gx gw (i + l1.length) l2
          (goal_loop_aux p height gx gw i l1 c) := by
  intro l1
  induction l1 with
  | nil => intro l2 i c; simp [goal_loop_aux]
  | cons g gs ih =>
    intro l2 i c
    simp only [List.cons_append, goal_loop_aux]
    rw [show List.append gs l2 = gs ++ l2 from rfl, ih]
    have harith : i + 1 + gs.length = i + (g :: gs).length := by
      simp [List.length_cons]
      omega
    rw [harith]

/-- C4: in the composer's goal loop, a goal whose slot start
`y = 130 + i * 100` exceeds half the canvas height is not drawn: the loop's
result equals the loop over the earlier goals alone, so the canvas carries no
contribution from that goal (or any later one).  In particular, when such a
goal is first, the canvas is exactly the pre-loop background. -/
theorem C4_goal_below_horizon_not_drawn (p : Prims) (height : ℕ) (gx gw : ℤ)
    (goals : List Goal) (i : ℕ) (c : Canvas)
    (hy : (height : ℚ) * (5/10) < 130 + (i : ℚ) * 100) :
    goal_loop_aux p height gx gw 0 goals c =
      goal_loop_aux p height gx gw 0 (goals.take i) c := by
  by_cases hlen : goals.length ≤ i
  · rw [List.take_of_length_le hlen]
  · have hi : i ≤ goals.length := le_of_lt (not_le.mp hlen)
    conv_lhs => rw [← List.take_append_drop i goals]
    rw [goal_loop_aux_append, List.length_take, min_eq_left hi]
    rw [goal_loop_aux_skip p height gx gw _ _ _ (by simpa using le_of_lt hy)]

/-- Witness for C4: canvas height 300, goal index 1 (slot start 230 > 150). -/
theorem C4_witness :
    ((300 : ℚ) * (5/10) < 130 + (1 : ℚ) * 100) ∧
    (goal_loop_aux trivPrims 300 100 480 0
        [⟨some "A", some 1, some 2⟩, ⟨some "B", some 3, some 4⟩] testImg =
      goal_loop_aux trivPrims 300 100 480 0
        ([⟨some "A", some 1, some 2⟩, ⟨some "B", some 3, some 4⟩].take 1) testImg) :=
  ⟨by norm_num,
   C4_goal_below_horizon_not_drawn trivPrims 300 100 480
     [⟨some "A", some 1, some 2⟩, ⟨some "B", some 3, some 4⟩] 1 testImg (by norm_num)⟩

/-- Characterisation of the band index of `draw_gradient_sky`: for an
in-range row it is the floor `⌊y / (height/5)⌋ = ⌊5y/height⌋`, and it never
exceeds 4 (the clamp `min(..., num_sections - 1)` is already implied). -/
theorem sky_section_char (h y : ℕ) (hh : 0 < h) (hy : y < h) :
    sky_section h y = (⌊(y : ℚ) / ((h : ℚ) / 5)⌋).toNat ∧
    sky_section h y = min (⌊(y : ℚ) * 5 / (h : ℚ)⌋).toNat 4 ∧
    sky_section h y ≤ 4 := by
  have hsh : (0 : ℚ) < (h : ℚ) / 5 := by positivity
  have hq0 : (0 : ℚ) ≤ (y : ℚ) / ((h : ℚ) / 5) := by positivity
  have hq5 : (y : ℚ) / ((h : ℚ) / 5) < 5 := by
    rw [div_lt_iff₀ hsh]
    have hyh : (y : ℚ) < (h : ℚ) := by exact_mod_cast hy
    linarith
  have hfl0 : 0 ≤ ⌊(y : ℚ) / ((h : ℚ) / 5)⌋ := Int.floor_nonneg.mpr hq0
  have hfl5 : ⌊(y : ℚ) / ((h : ℚ) / 5)⌋ < 5 := Int.floor_lt.mpr (by exact_mod_cast hq5)
  have h1 : sky_section h y = (⌊(y : ℚ) / ((h : ℚ) / 5)⌋).toNat := by
    unfold sky_section
    rw [pyint_of_nonneg hq0]
    exact min_eq_left (by omega)
  refine ⟨h1, ?_, by rw [h1]; omega⟩
  rw [h1, div_div_eq_mul_div]
  have hb : ⌊(y : ℚ) * 5 / (h : ℚ)⌋ < 5 := by
    rw [← div_div_eq_mul_div]
    exact hfl5
  have hb0 : 0 ≤ ⌊(y : ℚ) * 5 / (h : ℚ)⌋ := by
    rw [← div_div_eq_mul_div]
    exact hfl0
  exact (min_eq_left (by omega)).symm

/-- The fractional position `section_progress` of a row within its band
lies in `[0, 1)`. -/
theorem sky_sp_bounds (h y : ℕ) (hh : 0 < h) (hy : y < h) :
    0 ≤ ((y : ℚ) - (sky_section h y : ℚ) * ((h : ℚ) / 5)) / ((h : ℚ) / 5) ∧
    ((y : ℚ) - (sky_section h y : ℚ) * ((h : ℚ) / 5)) / ((h : ℚ) / 5) < 1 := by
  have hsh : (0 : ℚ) < (h : ℚ) / 5 := by positivity
  have hq0 : (0 : ℚ) ≤ (y : ℚ) / ((h : ℚ) / 5) := by positivity
  obtain ⟨h1, -, -⟩ := sky_section_char h y hh hy
  have hfl0 : 0 ≤ ⌊(y : ℚ) / ((h : ℚ) / 5)⌋ := Int.floor_nonneg.mpr hq0
  have hcast : ((sky_section h y : ℕ) : ℚ) = (⌊(y : ℚ) / ((h : ℚ) / 5)⌋ : ℚ) := by
    rw [h1]
    exact_mod_cast congrArg (fun z : ℤ => (z : ℚ)) (Int.toNat_of_nonneg hfl0)
  have hsp_eq : ((y : ℚ) - (sky_section h y : ℚ) * ((h : ℚ) / 5)) / ((h : ℚ) / 5) =
      (y : ℚ) / ((h : ℚ) / 5) - ⌊(y : ℚ) / ((h : ℚ) / 5)⌋ := by
    rw [hcast, sub_div, mul_div_cancel_right₀ _ (ne_of_gt hsh)]
  rw [hsp_eq]
  constructor
  · linarith [Int.floor_le ((y : ℚ) / ((h : ℚ) / 5))]
  · linarith [Int.lt_floor_add_one ((y : ℚ) / ((h : ℚ) / 5))]

/-- An interpolated channel value stays between the two stop values. -/
theorem sky_row_channel_mem (c1 c2 : ℕ) (sp : ℚ) (h0 : 0 ≤ sp) (h1 : sp < 1) :
    min c1 c2 ≤ sky_row_channel c1 c2 sp ∧ sky_row_channel c1 c2 sp ≤ max c1 c2 := by
  have hval1 : ((min c1 c2 : ℕ) : ℚ) ≤ (c1 : ℚ) + ((c2 : ℚ) - (c1 : ℚ)) * sp := by
    rcases le_total c1 c2 with hc | hc
    · rw [min_eq_left hc]
      have : (0 : ℚ) ≤ ((c2 : ℚ) - (c1 : ℚ)) * sp := by
        have : (c1 : ℚ) ≤ (c2 : ℚ) := by exact_mod_cast hc
        nlinarith
      linarith
    · rw [min_eq_right hc]
      have hcq : (c2 : ℚ) ≤ (c1 : ℚ) := by exact_mod_cast hc
      nlinarith
  have hval2 : (c1 : ℚ) + ((c2 : ℚ) - (c1 : ℚ)) * sp ≤ ((max c1 c2 : ℕ) : ℚ) := by
    rcases le_total c1 c2 with hc | hc
    · rw [max_eq_right hc]
      have hcq : (c1 : ℚ) ≤ (c2 : ℚ) := by exact_mod_cast hc
      nlinarith
    · rw [max_eq_left hc]
      have hcq : (c2 : ℚ) ≤ (c1 : ℚ) := by exact_mod_cast hc
      nlinarith
  have hnn : (0 : ℚ) ≤ (c1 : ℚ) + ((c2 : ℚ) - (c1 : ℚ)) * sp := by
    refine le_trans ?_ hval1
    positivity
  unfold sky_row_channel
  rw [pyint_of_nonneg hnn]
  constructor
  · have hle : ((min c1 c2 : ℕ) : ℤ) ≤ ⌊(c1 : ℚ) + ((c2 : ℚ) - (c1 : ℚ)) * sp⌋ := by
      rw [Int.le_floor]
      exact_mod_cast hval1
    omega
  · have hle : ⌊(c1 : ℚ) + ((c2 : ℚ) - (c1 : ℚ)) * sp⌋ ≤ ((max c1 c2 : ℕ) : ℤ) := by
      have := Int.floor_le_floor hval2
      rwa [Int.floor_natCast] at this
    omega

/-- Per-band, per-channel stop spans are bounded by `max_stop_delta`. -/
theorem stop_channel_bound (s : ℕ) (hs : s ≤ 4) :
    ((max (gradient_colors.getD s ⟨0, 0, 0⟩).r (gradient_colors.getD (s + 1) ⟨0, 0, 0⟩).r : ℕ) : ℤ) -
      ((min (gradient_colors.getD s ⟨0, 0, 0⟩).r (gradient_colors.getD (s + 1) ⟨0, 0, 0⟩).r : ℕ) : ℤ) ≤ max_stop_delta ∧
    ((max (gradient_colors.getD s ⟨0, 0, 0⟩).g (gradient_colors.getD (s + 1) ⟨0, 0, 0⟩).g : ℕ) : ℤ) -
      ((min (gradient_colors.getD s ⟨0, 0, 0⟩).g (gradient_colors.getD (s + 1) ⟨0, 0, 0⟩).g : ℕ) : ℤ) ≤ max_stop_delta ∧
    ((max (gradient_colors.getD s ⟨0, 0, 0⟩).b (gradient_colors.getD (s + 1) ⟨0, 0, 0⟩).b : ℕ) : ℤ) -
      ((min (gradient_colors.getD s ⟨0, 0, 0⟩).b (gradient_colors.getD (s + 1) ⟨0, 0, 0⟩).b : ℕ) : ℤ) ≤ max_stop_delta := by
  interval_cases s <;> decide

/-- The maximum per-stop delta of the gradient stops evaluates to 125. -/
theorem max_stop_delta_eq : max_stop_delta = 125 := by decide

/-- Every channel of a gradient row lies between that band's two stop
values. -/
theorem sky_row_mem (h y : ℕ) (hh : 0 < h) (hy : y < h) :
    (min (gradient_colors.getD (sky_section h y) ⟨0, 0, 0⟩).r
        (gradient_colors.getD (sky_section h y + 1) ⟨0, 0, 0⟩).r ≤ (sky_row h y).r ∧
      (sky_row h y).r ≤ max (gradient_colors.getD (sky_section h y) ⟨0, 0, 0⟩).r
        (gradient_colors.getD (sky_section h y + 1) ⟨0, 0, 0⟩).r) ∧
    (min (gradient_colors.getD (sky_section h y) ⟨0, 0, 0⟩).g
        (gradient_colors.getD (sky_section h y + 1) ⟨0, 0, 0⟩).g ≤ (sky_row h y).g ∧
      (sky_row h y).g ≤ max (gradient_colors.getD (sky_section h y) ⟨0, 0, 0⟩).g
        (gradient_colors.getD (sky_section h y + 1) ⟨0, 0, 0⟩).g) ∧
    (min (gradient_colors.getD (sky_section h y) ⟨0, 0, 0⟩).b
        (gradient_colors.getD (sky_section h y + 1) ⟨0, 0, 0⟩).b ≤ (sky_row h y).b ∧
      (sky_row h y).b ≤ max (gradient_colors.getD (sky_section h y) ⟨0, 0, 0⟩).b
        (gradient_colors.getD (sky_section h y + 1) ⟨0, 0, 0⟩).b) := by
  obtain ⟨hsp0, hsp1⟩ := sky_sp_bounds h y hh hy
  exact ⟨sky_row_channel_mem _ _ _ hsp0 hsp1, sky_row_channel_mem _ _ _ hsp0 hsp1,
    sky_row_channel_mem _ _ _ hsp0 hsp1⟩

/-- C8: the gradient sky colors row `y` by band index
`floor(y / (height/(N-1)))` clamped to `[0, N-2]` (N = 6 stops) with linear
per-channel interpolation by the row's fractional band position, and the
gradient is continuous: two adjacent rows in the same band never differ by
more than the maximum per-stop delta in any channel. -/
theorem C8_sky_gradient_continuity (h y : ℕ) (hh : 0 < h) (hy : y + 1 < h) :
    sky_section h y = min (⌊(y : ℚ) * 5 / (h : ℚ)⌋).toNat 4 ∧
    (sky_section h y = sky_section h (y + 1) →
      |((sky_row h (y + 1)).r : ℤ) - ((sky_row h y).r : ℤ)| ≤ max_stop_delta ∧
      |((sky_row h (y + 1)).g : ℤ) - ((sky_row h y).g : ℤ)| ≤ max_stop_delta ∧
      |((sky_row h (y + 1)).b : ℤ) - ((sky_row h y).b : ℤ)| ≤ max_stop_delta) := by
  have hy0 : y < h := by omega
  obtain ⟨-, hchar, hs4⟩ := sky_section_char h y hh hy0
  refine ⟨hchar, ?_⟩
  intro hsec
  have hmem := sky_row_mem h y hh hy0
  have hmem1 := sky_row_mem h (y + 1) hh hy
  rw [← hsec] at hmem1
  obtain ⟨hdr, hdg, hdb⟩ := stop_channel_bound (sky_section h y) hs4
  obtain ⟨⟨hr1, hr2⟩, ⟨hg1, hg2⟩, ⟨hb1, hb2⟩⟩ := hmem
  obtain ⟨⟨hr1', hr2'⟩, ⟨hg1', hg2'⟩, ⟨hb1', hb2'⟩⟩ := hmem1
  refine ⟨abs_le.mpr ⟨by omega, by omega⟩, abs_le.mpr ⟨by omega, by omega⟩,
    abs_le.mpr ⟨by omega, by omega⟩⟩

/-- Witness for C8 at height 10, adjacent rows 2 and 3 (same band). -/
theorem C8_witness :
    (0 < 10) ∧ (2 + 1 < 10) ∧ sky_section 10 2 = sky_section 10 3 ∧
    (|((sky_row 10 (2 + 1)).r : ℤ) - ((sky_row 10 2).r : ℤ)| ≤ max_stop_delta ∧
     |((sky_row 10 (2 + 1)).g : ℤ) - ((sky_row 10 2).g : ℤ)| ≤ max_stop_delta ∧
     |((sky_row 10 (2 + 1)).b : ℤ) - ((sky_row 10 2).b : ℤ)| ≤ max_stop_delta) :=
  ⟨by norm_num, by norm_num, by norm_num [sky_section, pyint],
   (C8_sky_gradient_continuity 10 2 (by norm_num) (by norm_num)).2
     (by norm_num [sky_section, pyint])⟩

/-- The goal loop preserves the canvas width. -/
theorem goal_loop_aux_w (p : Prims) (height : ℕ) (gx gw : ℤ) :
    ∀ (gs : List Goal) (i : ℕ) (c : Canvas),
      (goal_loop_aux p height gx gw i gs c).width = c.width := by
  intro gs
  induction gs with
  | nil => intro i c; rfl
  | cons g gs ih =>
    intro i c
    simp only [goal_loop_aux]
    rw [ih]
    split
    · rfl
    · rfl

/-- The goal loop preserves the canvas height. -/
theorem goal_loop_aux_h (p : Prims) (height : ℕ) (gx gw : ℤ) :
    ∀ (gs : List Goal) (i : ℕ) (c : Canvas),
      (goal_loop_aux p height gx gw i gs c).height = c.height := by
  intro gs
  induction gs with
  | nil => intro i c; rfl
  | cons g gs ih =>
    intro i c
    simp only [goal_loop_aux]
    rw [ih]
    split
    · rfl
    · rfl

theorem draw_gradient_sky_w (img : Canvas) : (draw_gradient_sky img).width = img.width := rfl
theorem draw_gradient_sky_h (img : Canvas) : (draw_gradient_sky img).height = img.height := rfl
theorem draw_sun_w (img : Canvas) : (draw_sun img).width = img.width := rfl
theorem draw_sun_h (img : Canvas) : (draw_sun img).height = img.height := rfl
theorem draw_geometric_shapes_w (p : Prims) (img : Canvas) :
    (draw_geometric_shapes p img).width = img.width := rfl
theorem draw_geometric_shapes_h (p : Prims) (img : Canvas) :
    (draw_geometric_shapes p img).height = img.height := rfl
theorem draw_palm_trees_w (p : Prims) (img : Canvas) (n : ℕ) :
    (draw_palm_trees p img n).width = img.width := rfl
theorem draw_palm_trees_h (p : Prims) (img : Canvas) (n : ℕ) :
    (draw_palm_trees p img n).height = img.height := rfl
theorem draw_perspective_grid_w (p : Prims) (img : Canvas) :
    (draw_perspective_grid p img).width = img.width := rfl
theorem draw_perspective_grid_h (p : Prims) (img : Canvas) :
    (draw_perspective_grid p img).height = img.height := rfl
theorem draw_title_w (p : Prims) (img : Canvas) (t : String) (y : ℤ) :
    (draw_title p img t y).width = img.width := rfl
theorem draw_title_h (p : Prims) (img : Canvas) (t : String) (y : ℤ) :
    (draw_title p img t y).height = img.height := rfl
theorem newRGB_w (w h : ℕ) (c : RGBc) : (newRGB w h c).width = w := rfl
theorem newRGB_h (w h : ℕ) (c : RGBc) : (newRGB w h c).height = h := rfl

/-- C1: `generate_wallpaper` returns a 3-channel RGB canvas whose pixel
dimensions equal the configured resolution, and an absent `title`,
`resolution` or `goals` key behaves exactly as the defaults `"GOALS"`,
`1920×1080` and the empty list. -/
theorem C1_generate_dimensions_and_defaults (p : Prims) (cfg : GoalsConfig) :
    (generate_wallpaper p cfg).width = (cfg.resolution.getD (1920, 1080)).1 ∧
    (generate_wallpaper p cfg).height = (cfg.resolution.getD (1920, 1080)).2 ∧
    (generate_wallpaper p cfg).channels = 3 ∧
    (cfg.title = none →
      generate_wallpaper p cfg =
        generate_wallpaper p ⟨some "GOALS", cfg.resolution, cfg.goals⟩) ∧
    (cfg.resolution = none →
      generate_wallpaper p cfg =
        generate_wallpaper p ⟨cfg.title, some (1920, 1080), cfg.goals⟩) ∧
    (cfg.goals = none →
      generate_wallpaper p cfg =
        generate_wallpaper p ⟨cfg.title, cfg.resolution, some []⟩) := by
  obtain ⟨t, r, gl⟩ := cfg
  refine ⟨?_, ?_, rfl, ?_, ?_, ?_⟩
  · simp only [generate_wallpaper, apply_all_effects_width, goal_loop_aux_w,
      draw_title_w, draw_perspective_grid_w, draw_palm_trees_w,
      draw_geometric_shapes_w, draw_sun_w, draw_gradient_sky_w, newRGB_w]
  · simp only [generate_wallpaper, apply_all_effects_height, goal_loop_aux_h,
      draw_title_h, draw_perspective_grid_h, draw_palm_trees_h,
      draw_geometric_shapes_h, draw_sun_h, draw_gradient_sky_h, newRGB_h]
  · intro ht
    simp only at ht
    subst ht
    rfl
  · intro hr
    simp only at hr
    subst hr
    rfl
  · intro hg
    simp only at hg
    subst hg
    rfl

/-- Witness for C1 at a concrete 8×6 configuration with absent title and
goals. -/
theorem C1_witness :
    (generate_wallpaper trivPrims ⟨none, some (8, 6), none⟩).width = 8 ∧
    (generate_wallpaper trivPrims ⟨none, some (8, 6), none⟩).height = 6 ∧
    (generate_wallpaper trivPrims ⟨none, some (8, 6), none⟩).channels = 3 ∧
    generate_wallpaper trivPrims ⟨none, some (8, 6), none⟩ =
      generate_wallpaper trivPrims ⟨some "GOALS", some (8, 6), none⟩ ∧
    generate_wallpaper trivPrims ⟨none, some (8, 6), none⟩ =
      generate_wallpaper trivPrims ⟨none, some (8, 6), some []⟩ :=
  ⟨(C1_generate_dimensions_and_defaults trivPrims ⟨none, some (8, 6), none⟩).1,
   (C1_generate_dimensions_and_defaults trivPrims ⟨none, some (8, 6), none⟩).2.1,
   (C1_generate_dimensions_and_defaults trivPrims ⟨none, some (8, 6), none⟩).2.2.1,
   (C1_generate_dimensions_and_defaults trivPrims ⟨none, some (8, 6), none⟩).2.2.2.1 rfl,
   (C1_generate_dimensions_and_defaults trivPrims ⟨none, some (8, 6), none⟩).2.2.2.2.2 rfl⟩
